import Mathlib

/-!
# Verification of the trpc-db-collection sync engine

Shallow embedding of the core of the `trpc-db-collection` repository:

* `src/events.ts` — the event bus (`TrpcSync.eventsSubscription`,
  `TrpcSync.registerEvent`);
* `src/collection-options.ts` — the reconciliation engine
  (`sync` / `initialSync`, the `onData` live handler, `awaitEventId`,
  and the `onInsert` / `onUpdate` / `onDelete` persistence handlers);
* `src/local-storage.ts` — the warm-start cache helpers
  (`loadFromLocalStorage`, `saveToLocalStorage`,
  `updateLocalStorageAfterWrite`).

Asynchronous code is modelled by explicit traces: a sync session is a
pure function from the schedule of deliveries (events arriving before /
after the snapshot response) to the list of emitted operations and the
final state.  JavaScript `Set` state becomes `Finset Nat`; nullable
values become `Option`; a thrown-and-caught exception becomes `Option`
and a rethrown one `Except`.
-/

namespace TrpcDb

/-- The `action` field of a sync event: `"insert" | "update" | "delete"`. -/
inductive Action where
  | insert
  | update
  | delete
deriving DecidableEq, Repr

/-- A concrete entity row used for scenario checks: `{ id, title }`. -/
structure Todo where
  id : Nat
  title : String
deriving DecidableEq, Repr

/-- `TrpcSyncEvent` from `src/events.ts`:
`{ id: number; action; data: TItem; userId: string }`. -/
structure SyncEvent (α : Type) where
  id : Nat
  action : Action
  data : α
  userId : String
deriving DecidableEq, Repr

/-- The argument of `saveEvent` in `registerEvent`: an event without an id
(`Omit<TrpcSyncEvent, "id">`). -/
structure EventDraft (α : Type) where
  action : Action
  data : α
  userId : String
deriving DecidableEq, Repr

/-- `tracked(event.id.toString(), event)` — an event tagged with its id
rendered as a string, the resumption cursor. -/
def tagEvent {α : Type} (e : SyncEvent α) : String × SyncEvent α :=
  (toString e.id, e)

/-- `TrpcSync.eventsSubscription` from `src/events.ts`, as a pure function
from its inputs to the full sequence of yielded tagged events.

* `lastEventId` models `opts.lastEventId` (`number | null`); the guard
  `opts.lastEventId && opts.fetchLastEvents` uses JavaScript truthiness,
  so the catch-up branch runs only when the id is present, non-zero, and
  a `fetchLastEvents` function was supplied.
* `fetchLastEvents` models the async catch-up fetch as a pure function of
  the last event id.
* `live` is the sequence of `(userId, data)` pairs the iterable obtained
  from `ee.toIterable("event", …)` delivers; it is created before the
  fetch, so it may include events published while the fetch is in flight.
-/
def eventsSubscription {α : Type} (userId : String) (lastEventId : Option Nat)
    (fetchLastEvents : Option (Nat → List (SyncEvent α)))
    (live : List (String × SyncEvent α)) : List (String × SyncEvent α) :=
  let catchUp :=
    match lastEventId, fetchLastEvents with
    | some n, some fetch =>
        if n ≠ 0 then
          ((fetch n).filter (fun e => e.userId = userId)).map tagEvent
        else []
    | _, _ => []
  catchUp ++ (live.filter (fun p => p.1 = userId)).map (fun p => tagEvent p.2)

/-- `TrpcSync.registerEvent` from `src/events.ts`: saves one event row for
the current user, emits it, then saves and emits one row per (distinct)
other user.  Returns the list of `(userId, event)` emissions in order
together with the function's return value, `currentUserEvent.id`. -/
def registerEvent {α : Type} (currentUserId : String)
    (otherUserIds : Option (List String)) (action : Action) (data : α)
    (saveEvent : EventDraft α → SyncEvent α) :
    List (String × SyncEvent α) × Nat :=
  let currentUserEvent := saveEvent ⟨action, data, currentUserId⟩
  match otherUserIds with
  | none => ([(currentUserId, currentUserEvent)], currentUserEvent.id)
  | some others =>
      ([(currentUserId, currentUserEvent)] ++
        (others.filter (fun u => u ≠ currentUserId)).map
          (fun u => (u, saveEvent ⟨action, data, u⟩)),
       currentUserEvent.id)

/-! ## `src/local-storage.ts` -/

/-- A pluggable serializer (`{ parse, stringify }`).  `parse` may throw in
the source; a throw is modelled by `none`. -/
structure Serializer (α : Type) where
  parse : String → Option α
  stringify : α → String

/-- `loadFromLocalStorage(collectionName, serializer)`.

`storage` is the value of `localStorage.getItem(key)` (`none` on a miss).
`serializer` is `Option` because the call at
`collection-options.ts:162` passes no second argument, so `serializer`
is `undefined` there: when data is present, `serializer.parse(data)`
throws a `TypeError`, the `catch` swallows it and the function returns
`null` — modelled by the `(some _, none)` branch returning `none`. -/
def loadFromLocalStorage {α : Type} (storage : Option String)
    (serializer : Option (Serializer α)) : Option α :=
  match storage, serializer with
  | some data, some s => s.parse data
  | some _, none => none
  | none, _ => none

/-- `saveToLocalStorage(collectionName, data, serializer)`: the new value
stored under the collection's key. -/
def saveToLocalStorage {α : Type} (data : α) (serializer : Serializer α) :
    Option String :=
  some (serializer.stringify data)

/-- `{ ...existingItem, ...item }` in `updateLocalStorageAfterWrite`: both
records carry the full field set of `TItem`, so the spread of `item` over
`existingItem` yields `item`. -/
def spreadMerge {α : Type} (_existingItem : α) (item : α) : α := item

/-- The data transform at the heart of `updateLocalStorageAfterWrite`
(`src/local-storage.ts:87-106`): the `switch (operation)` mapping the
currently cached row array to the updated one. -/
def applyWrite (operation : Action) (item : Todo) (currentData : List Todo) :
    List Todo :=
  match operation with
  | .insert => currentData ++ [item]
  | .update => currentData.map (fun existingItem =>
      if existingItem.id = item.id then spreadMerge existingItem item
      else existingItem)
  | .delete => currentData.filter (fun existingItem => existingItem.id ≠ item.id)

/-- `updateLocalStorageAfterWrite(operation, item, config)` as a transform on
the stored string: load (defaulting to `[]`), apply the switch, save.
The call sites settled here pass `config.serializer`, so the load and
save both use it.  Returns the new stored value. -/
def updateLocalStorageAfterWrite (operation : Action) (item : Todo)
    (serializer : Serializer (List Todo)) (storage : Option String) :
    Option String :=
  let currentData := (loadFromLocalStorage storage (some serializer)).getD []
  let updatedData := applyWrite operation item currentData
  saveToLocalStorage updatedData serializer

/-! ## `src/collection-options.ts` — the reconciliation engine

A sync session is modelled as a state machine.  `handleData` is the
`onData` callback of the live subscription; `initialSyncRun` is the body
of `initialSync` (its synchronous tail after `await list.query()` is
atomic — it contains no further suspension point).  `runSession` runs a
whole bootstrap schedule: the events delivered while the snapshot query
is in flight (`preEvents`), the snapshot response (`networkData`, an
`Except` since `list.query()` may reject), and the events delivered
after the snapshot response (`postEvents`). -/

/-- One observable operation of the engine: view-transaction primitives
(`begin` / `write` / `commit`), readiness, and warm-start-cache calls. -/
inductive Op (α : Type) where
  | begin
  | write (type : Action) (value : α)
  | commit
  | markReady
  | saveCache (data : List α)
  | cacheUpdate (operation : Action) (item : α)
deriving DecidableEq, Repr

/-- The mutable closure state of one `sync` session. -/
structure SessionState (α : Type) where
  ops : List (Op α)
  eventBuffer : List (SyncEvent α)
  isInitialSyncComplete : Bool
  receivedEventIds : Finset Nat
  lastEventId : Option Nat
deriving DecidableEq

/-- The state at subscription time: empty buffer, `isInitialSyncComplete =
false`, empty observed-id set, `lastEventId = null`. -/
def initialSessionState (α : Type) : SessionState α :=
  ⟨[], [], false, ∅, none⟩

/-- The `onData` handler (`collection-options.ts:117-149`): before the
initial sync completes the event is buffered; afterwards it is applied
(`begin`/`write`/`commit`), the cache is updated when local storage is
enabled, the id is added to `receivedEventIds`, and `lastEventId` is
advanced. -/
def handleData {α : Type} (localStorageSyncEnabled : Bool)
    (st : SessionState α) (e : SyncEvent α) : SessionState α :=
  if st.isInitialSyncComplete = false then
    { st with eventBuffer := st.eventBuffer ++ [e] }
  else
    { st with
      ops := st.ops ++ [.begin, .write e.action e.data, .commit] ++
        (if localStorageSyncEnabled then [.cacheUpdate e.action e.data] else []),
      receivedEventIds := insert e.id st.receivedEventIds,
      lastEventId := some e.id }

/-- The warm-start phase of `initialSync` (`collection-options.ts:165-180`):
an unconditional `begin`, then — only when local storage is enabled and
the cache holds a non-empty row array — one insert per cached row and a
`commit`.  (With an empty or missing cache the opened transaction is
never committed by this phase.) -/
def warmStartOps {α : Type} (localStorageSyncEnabled : Bool)
    (cachedData : Option (List α)) : List (Op α) :=
  [.begin] ++
    (match cachedData with
     | some cd =>
         if localStorageSyncEnabled ∧ 0 < cd.length then
           cd.map (fun item => Op.write .insert item) ++ [.commit]
         else []
     | none => [])

/-- The snapshot-arrival phase (`collection-options.ts:186-214`), guarded
by `networkData.length > 0`: one transaction deleting every cached row
and inserting every network row, then — when local storage is enabled —
the cache overwrite.  An empty snapshot skips the whole phase. -/
def snapshotOps {α : Type} (localStorageSyncEnabled : Bool)
    (cachedData : Option (List α)) (networkRows : List α) : List (Op α) :=
  if 0 < networkRows.length then
    [.begin] ++ (cachedData.getD []).map (fun item => Op.write .delete item) ++
      networkRows.map (fun item => Op.write .insert item) ++ [.commit] ++
      (if localStorageSyncEnabled then [.saveCache networkRows] else [])
  else []

/-- The buffer-replay phase (`collection-options.ts:218-236`): one
transaction writing every buffered event, then per-event cache updates
when local storage is enabled.  It does not touch `receivedEventIds`. -/
def bufferReplayOps {α : Type} (localStorageSyncEnabled : Bool)
    (buffer : List (SyncEvent α)) : List (Op α) :=
  if 0 < buffer.length then
    [.begin] ++ buffer.map (fun ev => Op.write ev.action ev.data) ++ [.commit] ++
      (if localStorageSyncEnabled then
        buffer.map (fun ev => Op.cacheUpdate ev.action ev.data)
       else [])
  else []

/-- The body of `initialSync` (`collection-options.ts:157-246`).

* `cachedData` is the value of
  `localStorageSyncEnabled ? loadFromLocalStorage(config.name) : null`.
* If `list.query()` rejects, the `catch` rethrows and the `finally`
  still emits `markReady`.
* On success the snapshot phase runs, `isInitialSyncComplete` flips, the
  buffer is replayed and cleared, and `markReady` closes the run.  Note:
  replay does not touch `receivedEventIds`. -/
def initialSyncRun {α ε : Type} (localStorageSyncEnabled : Bool)
    (cachedData : Option (List α)) (networkData : Except ε (List α))
    (st : SessionState α) : SessionState α × Except ε Unit :=
  let st1 := { st with
    ops := st.ops ++ warmStartOps localStorageSyncEnabled cachedData }
  match networkData with
  | .error e => ({ st1 with ops := st1.ops ++ [.markReady] }, .error e)
  | .ok networkRows =>
      let st2 := { st1 with
        ops := st1.ops ++ snapshotOps localStorageSyncEnabled cachedData networkRows,
        isInitialSyncComplete := true }
      let st3 := { st2 with
        ops := st2.ops ++ bufferReplayOps localStorageSyncEnabled st2.eventBuffer ++
          [.markReady],
        eventBuffer := [] }
      (st3, .ok ())

/-- Recognizes the `markReady` operation (used to count readiness
signals). -/
def isMarkReady {α : Type} : Op α → Bool
  | .markReady => true
  | _ => false

/-- One whole bootstrap schedule: subscribe, deliver `preEvents` while the
snapshot query is in flight (they are buffered), run the tail of
`initialSync` when `networkData` arrives, then deliver `postEvents`. -/
def runSession {α ε : Type} (localStorageSyncEnabled : Bool)
    (cachedData : Option (List α)) (preEvents : List (SyncEvent α))
    (networkData : Except ε (List α)) (postEvents : List (SyncEvent α)) :
    SessionState α × Except ε Unit :=
  let stPre := preEvents.foldl (handleData localStorageSyncEnabled)
    (initialSessionState α)
  let (stSnap, res) := initialSyncRun localStorageSyncEnabled cachedData
    networkData stPre
  (postEvents.foldl (handleData localStorageSyncEnabled) stSnap, res)

/-- The session as actually wired in `trpcCollectionOptions`: `cachedData`
comes from the call `loadFromLocalStorage<TItem[]>(config.name)` at
`collection-options.ts:162`, which passes *no* serializer argument. -/
def runSessionFromStorage {ε : Type} (localStorageSyncEnabled : Bool)
    (storage : Option String) (preEvents : List (SyncEvent Todo))
    (networkData : Except ε (List Todo)) (postEvents : List (SyncEvent Todo)) :
    SessionState Todo × Except ε Unit :=
  let cachedData : Option (List Todo) :=
    if localStorageSyncEnabled then loadFromLocalStorage storage none else none
  runSession localStorageSyncEnabled cachedData preEvents networkData postEvents

/-! ## `awaitEventId` — the write-acknowledgement gate

`awaitEventId` (`collection-options.ts:256-269`) checks the store state
synchronously; if the id is absent it subscribes to the store and, on each
notification, re-checks membership in the *current* state, resolving
`true` and unsubscribing at the first notification whose state contains
the id.  `notifications` is the sequence of store states at the
notifications that follow the call (one per `setState`). -/

/-- How a call to `awaitEventId` resolves. -/
inductive Resolution where
  | immediate
  | atNotification (k : Nat)
  | pending
deriving DecidableEq, Repr

/-- The subscriber loop: index of the first notification whose state
contains `eventId`, if any. -/
def waitLoop (eventId : Nat) : List (Finset Nat) → Option Nat
  | [] => none
  | s :: rest =>
      if eventId ∈ s then some 0 else (waitLoop eventId rest).map (· + 1)

/-- `awaitEventId(eventId)` given the current observed-id set and the
states at subsequent notifications.  The resolved value is the constant
`true` in the source (`resolve(true)` / `Promise.resolve(true)`), so only
*when* the promise resolves is recorded.  `.immediate` is the early
return before any waiter is registered; `.atNotification k` resolves (and
unsubscribes) at notification `k`; `.pending` never resolves. -/
def awaitEventId (received : Finset Nat) (notifications : List (Finset Nat))
    (eventId : Nat) : Resolution :=
  if eventId ∈ received then .immediate
  else
    match waitLoop eventId notifications with
    | some k => .atNotification k
    | none => .pending

/-! ## `onInsert` / `onUpdate` / `onDelete` — the persistence handlers

Each handler destructures `transaction.mutations[0]` and issues exactly
one tRPC mutation.  A transaction's mutation array is modelled as a head
`first` plus the remaining mutations `rest` (`mutations = first :: rest`),
and a handler's value is the list of requests it transmits. -/

/-- One optimistic mutation of a transaction: `modified` is the full
mutated row, `changes` the partial change set (used by `onUpdate`). -/
structure Mutation (α β : Type) where
  modified : α
  changes : β
deriving DecidableEq, Repr

/-- A request sent to the tRPC router by a persistence handler. -/
inductive TrpcRequest (α β : Type) where
  | create (input : α)
  | update (id : Nat) (data : β)
  | delete (id : Nat)
deriving DecidableEq, Repr

/-- `onInsert` (`collection-options.ts:278-297`): sends
`create.mutate({ ...modified })` for `transaction.mutations[0]` only. -/
def onInsert {β : Type} (first : Mutation Todo β) (_rest : List (Mutation Todo β)) :
    List (TrpcRequest Todo β) :=
  [.create first.modified]

/-- `onUpdate` (`collection-options.ts:299-319`): sends
`update.mutate({ id: modified.id, data: changes })` for
`transaction.mutations[0]` only. -/
def onUpdate {β : Type} (first : Mutation Todo β) (_rest : List (Mutation Todo β)) :
    List (TrpcRequest Todo β) :=
  [.update first.modified.id first.changes]

/-- `onDelete` (`collection-options.ts:321-340`): sends
`delete.mutate({ id: modified.id })` for `transaction.mutations[0]` only. -/
def onDelete {β : Type} (first : Mutation Todo β) (_rest : List (Mutation Todo β)) :
    List (TrpcRequest Todo β) :=
  [.delete first.modified.id]

/-! ## Concrete instances used by scenarios and witnesses -/

/-- Scenario A's `saveEvent`: persists a draft, assigning it id `1`. -/
def scenarioASave : EventDraft Todo → SyncEvent Todo :=
  fun d => ⟨1, d.action, d.data, d.userId⟩

/-- Scenario A: register one insert event for `"u1"` with no other
recipients; `saveEvent` assigns id 1. -/
def scenarioA : List (String × SyncEvent Todo) × Nat :=
  registerEvent "u1" none .insert ⟨7, "x"⟩ scenarioASave

/-- A concrete serializer whose decode succeeds exactly on the string
`"cache"`, yielding one row, and whose encode records the row count. -/
def cacheSer : Serializer (List Todo) where
  parse := fun s => if s = "cache" then some [⟨1, "a"⟩] else none
  stringify := fun rows => toString rows.length

/-! # Theorems -/

theorem waitLoop_eq_none_iff (eventId : Nat) (l : List (Finset Nat)) :
    waitLoop eventId l = none ↔ ∀ s ∈ l, eventId ∉ s := by
  induction l with
  | nil => simp [waitLoop]
  | cons s rest ih =>
      by_cases h : eventId ∈ s
      · simp [waitLoop, h]
      · simp [waitLoop, h, ih]

theorem waitLoop_first (eventId : Nat) (l : List (Finset Nat)) (k : Nat)
    (h : waitLoop eventId l = some k) :
    k < l.length ∧ eventId ∈ l.getD k ∅ ∧ (∀ j < k, eventId ∉ l.getD j ∅) ∧
      l.getD k ∅ ∈ l := by
  induction l generalizing k with
  | nil => simp [waitLoop] at h
  | cons s rest ih =>
      by_cases hs : eventId ∈ s
      · simp only [waitLoop, hs, if_pos, Option.some.injEq] at h
        subst h
        simpa using hs
      · simp only [waitLoop, hs, if_neg, Option.map_eq_some', not_false_iff] at h
        obtain ⟨k', hk', rfl⟩ := h
        obtain ⟨h1, h2, h3, h4⟩ := ih k' hk'
        refine ⟨by simpa using Nat.succ_lt_succ h1, by simpa using h2, ?_,
          by simpa using Or.inr h4⟩
        intro j hj
        cases j with
        | zero => simpa using hs
        | succ j' => simpa using h3 j' (Nat.lt_of_succ_lt_succ hj)

/-- C5: `awaitEventId(id)` resolves (with `true`) if and only if the id is
eventually present in the observed-id set: it returns `.immediate` —
before any waiter is registered — when the id is already in the set at
call time, and otherwise it resolves exactly at the first notification
whose state contains the id (the notification of the `setState` that
added it), never earlier. -/
theorem C5_await_event_id_gate (received : Finset Nat)
    (notifications : List (Finset Nat)) (eventId : Nat) :
    (awaitEventId received notifications eventId ≠ .pending ↔
      eventId ∈ received ∨ ∃ s ∈ notifications, eventId ∈ s)
    ∧ (eventId ∈ received →
        awaitEventId received notifications eventId = .immediate)
    ∧ (∀ k, awaitEventId received notifications eventId = .atNotification k →
        eventId ∉ received ∧ k < notifications.length ∧
        eventId ∈ notifications.getD k ∅ ∧
        ∀ j < k, eventId ∉ notifications.getD j ∅) := by
  refine ⟨?_, ?_, ?_⟩
  · by_cases hm : eventId ∈ received
    · simp [awaitEventId, hm]
    · rcases hcase : waitLoop eventId notifications with _ | k
      · constructor
        · intro hne
          exact absurd (by simp [awaitEventId, hm, hcase]) hne
        · rintro (h | ⟨s, hs, hmem⟩)
          · exact absurd h hm
          · exact absurd hmem
              ((waitLoop_eq_none_iff eventId notifications).1 hcase s hs)
      · obtain ⟨h1, h2, _, h4⟩ := waitLoop_first eventId notifications k hcase
        constructor
        · intro _
          exact Or.inr ⟨notifications.getD k ∅, h4, h2⟩
        · intro _
          simp [awaitEventId, hm, hcase]
  · intro hm
    simp [awaitEventId, hm]
  · intro k hk
    by_cases hm : eventId ∈ received
    · simp [awaitEventId, hm] at hk
    · refine ⟨hm, ?_⟩
      rcases hcase : waitLoop eventId notifications with _ | k'
      · simp [awaitEventId, hm, hcase] at hk
      · simp only [awaitEventId, hm, if_neg, not_false_iff, hcase,
          Resolution.atNotification.injEq] at hk
        subst hk
        obtain ⟨h1, h2, h3, _⟩ := waitLoop_first eventId notifications k' hcase
        exact ⟨h1, h2, h3⟩

theorem C5_await_event_id_gate_witness :
    awaitEventId {7} [] 7 = .immediate ∧
    awaitEventId ∅ [∅, {7}] 7 ≠ .pending :=
  ⟨(C5_await_event_id_gate {7} [] 7).2.1 (by decide),
   (C5_await_event_id_gate ∅ [∅, {7}] 7).1.mpr
     (Or.inr ⟨{7}, by decide, by decide⟩)⟩

/-- C8 (Scenario A): registering one insert event `{id:1, action:insert,
data:{id:7,title:"x"}, userId:"u1"}` for `"u1"` with no other recipients
makes `"u1"`'s subscription yield exactly one event with cursor `"1"`;
a subscription for `"u2"` yields nothing; every event yielded to `"u1"`
carries `userId = "u1"`. -/
theorem C8_scenario_a :
    scenarioA.2 = 1
    ∧ eventsSubscription "u1" none none scenarioA.1 =
        [("1", ⟨1, .insert, ⟨7, "x"⟩, "u1"⟩)]
    ∧ eventsSubscription "u2" none none scenarioA.1 = []
    ∧ ∀ p ∈ eventsSubscription "u1" none none scenarioA.1,
        p.2.userId = "u1" := by
  refine ⟨rfl, rfl, rfl, ?_⟩
  decide

/-- C9: each persistence handler transmits exactly one request, derived
from `transaction.mutations[0]` alone; in a transaction with more than
one mutation the remaining mutations are never sent (the request list is
the same as for the singleton transaction). -/
theorem C9_only_first_mutation_sent {β : Type} (first : Mutation Todo β)
    (rest : List (Mutation Todo β)) (_h : 0 < rest.length) :
    (onInsert first rest = [.create first.modified]
      ∧ onInsert first rest = onInsert first []
      ∧ (onInsert first rest).length = 1)
    ∧ (onUpdate first rest = [.update first.modified.id first.changes]
      ∧ onUpdate first rest = onUpdate first []
      ∧ (onUpdate first rest).length = 1)
    ∧ (onDelete first rest = [.delete first.modified.id]
      ∧ onDelete first rest = onDelete first []
      ∧ (onDelete first rest).length = 1) :=
  ⟨⟨rfl, rfl, rfl⟩, ⟨rfl, rfl, rfl⟩, ⟨rfl, rfl, rfl⟩⟩

theorem C9_only_first_mutation_sent_witness :
    onInsert (⟨⟨1, "a"⟩, ()⟩ : Mutation Todo Unit) [⟨⟨2, "b"⟩, ()⟩] =
      [.create ⟨1, "a"⟩] :=
  (C9_only_first_mutation_sent ⟨⟨1, "a"⟩, ()⟩ [⟨⟨2, "b"⟩, ()⟩] (by decide)).1.1

/-- C10: on an insert, `updateLocalStorageAfterWrite` appends the item to
the cached row array unconditionally: the stored array becomes
`currentData ++ [item]`, the count of rows carrying `item.id` grows by
one (so inserting an id already in the cache leaves two rows with that
id), and the full load/apply/save pipeline stores exactly the appended
array whenever the cached string decodes. -/
theorem C10_insert_not_deduplicated (item : Todo) (currentData : List Todo) :
    applyWrite .insert item currentData = currentData ++ [item]
    ∧ (applyWrite .insert item currentData).countP (fun r => r.id == item.id) =
        currentData.countP (fun r => r.id == item.id) + 1
    ∧ ∀ (serializer : Serializer (List Todo)) (storage : Option String)
        (rows : List Todo),
        loadFromLocalStorage storage (some serializer) = some rows →
        updateLocalStorageAfterWrite .insert item serializer storage =
          some (serializer.stringify (rows ++ [item])) := by
  refine ⟨rfl, ?_, ?_⟩
  · simp [applyWrite, List.countP_append, List.countP_cons]
  · intro serializer storage rows h
    simp [updateLocalStorageAfterWrite, h, applyWrite, saveToLocalStorage]

theorem C10_insert_not_deduplicated_witness :
    (applyWrite .insert ⟨1, "y"⟩ [⟨1, "a"⟩]).countP (fun r => r.id == 1) = 2
    ∧ updateLocalStorageAfterWrite .insert ⟨1, "y"⟩ cacheSer (some "cache") =
        some "2" := by
  have h := C10_insert_not_deduplicated ⟨1, "y"⟩ [⟨1, "a"⟩]
  refine ⟨by simpa using h.2.1, ?_⟩
  have h2 := h.2.2 cacheSer (some "cache") [⟨1, "a"⟩]
    (by simp [loadFromLocalStorage, cacheSer])
  simpa [cacheSer] using h2

/-- C7 counterexample: a subscription opened with `lastEventId = 0` yields
nothing at all, even though the ledger holds an event for the subscriber
with id `1 > 0` and `fetchLastEvents` would return it: the guard
`opts.lastEventId && opts.fetchLastEvents` treats `0` as falsy and skips
the catch-up fetch entirely. -/
theorem C7_counterexample :
    eventsSubscription "u" (some 0)
        (some fun _ => [(⟨1, .insert, ⟨7, "x"⟩, "u"⟩ : SyncEvent Todo)]) [] = ([] : List (String × SyncEvent Todo))
    ∧ ("1", (⟨1, .insert, ⟨7, "x"⟩, "u"⟩ : SyncEvent Todo)) ∉
        eventsSubscription "u" (some 0)
          (some fun _ => [(⟨1, .insert, ⟨7, "x"⟩, "u"⟩ : SyncEvent Todo)]) [] := by
  constructor
  · rfl
  · intro h
    simp [eventsSubscription] at h

/-- C7 (amended): for a subscription opened with a *non-zero*
`lastEventId = n` and a `fetchLastEvents` function, the yielded sequence
is the catch-up phase followed by the live phase, and the catch-up phase
contains every ledger event visible to the subscribing user with id
greater than `n` (assuming `fetchLastEvents` returns exactly the ledger
events with id `> n`), each tagged with its id rendered as a string.
With `lastEventId = 0` the catch-up fetch is skipped (JS truthiness). -/
theorem C7_catchup_amended {α : Type} (userId : String) (n : Nat) (hn : n ≠ 0)
    (fetch : Nat → List (SyncEvent α)) (ledger : List (SyncEvent α))
    (hfetch : ∀ e, e ∈ fetch n ↔ e ∈ ledger ∧ n < e.id)
    (live : List (String × SyncEvent α)) :
    eventsSubscription userId (some n) (some fetch) live =
      ((fetch n).filter (fun e => e.userId = userId)).map tagEvent ++
        (live.filter (fun p => p.1 = userId)).map (fun p => tagEvent p.2)
    ∧ ∀ e ∈ ledger, e.userId = userId → n < e.id →
        (toString e.id, e) ∈
          ((fetch n).filter (fun e => e.userId = userId)).map tagEvent := by
  constructor
  · simp [eventsSubscription, hn]
  · intro e he hu hid
    exact List.mem_map.2 ⟨e, List.mem_filter.2 ⟨(hfetch e).2 ⟨he, hid⟩,
      by simp [hu]⟩, rfl⟩

theorem C7_catchup_amended_witness :
    (toString 2, (⟨2, .insert, ⟨7, "x"⟩, "u"⟩ : SyncEvent Todo)) ∈
      eventsSubscription "u" (some 1)
        (some fun _ => [(⟨2, .insert, ⟨7, "x"⟩, "u"⟩ : SyncEvent Todo)]) [] := by
  have h := C7_catchup_amended "u" 1 (by decide)
    (fun _ => [(⟨2, .insert, ⟨7, "x"⟩, "u"⟩ : SyncEvent Todo)]) [⟨2, .insert, ⟨7, "x"⟩, "u"⟩]
    (by
      intro e
      simp only [List.mem_singleton]
      constructor
      · rintro rfl
        exact ⟨rfl, by decide⟩
      · rintro ⟨h, _⟩
        exact h)
    []
  rw [h.1]
  exact List.mem_append_left _
    (h.2 ⟨2, .insert, ⟨7, "x"⟩, "u"⟩ (by simp) rfl (by decide))

/-- C2 counterexample: with `lastEventId = 1`, a ledger/fetch result
`[{id:2, …, userId:"u"}]` (the user's events with id `> 1`, ascending) and
the very same event published on the bus while the catch-up fetch is in
flight (so it is captured by the live iterable opened before the fetch),
the subscription yields id 2 twice: the yielded id sequence is neither
strictly increasing nor duplicate-free — the claim's assumptions hold at
this input, yet its conclusion fails. -/
theorem C2_counterexample :
    eventsSubscription "u" (some 1)
        (some fun _ => [(⟨2, .insert, ⟨7, "x"⟩, "u"⟩ : SyncEvent Todo)])
        [(("u", ⟨2, .insert, ⟨7, "x"⟩, "u"⟩) : String × SyncEvent Todo)] =
      [("2", ⟨2, .insert, ⟨7, "x"⟩, "u"⟩), ("2", ⟨2, .insert, ⟨7, "x"⟩, "u"⟩)]
    ∧ ¬ (((eventsSubscription "u" (some 1)
        (some fun _ => [(⟨2, .insert, ⟨7, "x"⟩, "u"⟩ : SyncEvent Todo)])
        [(("u", ⟨2, .insert, ⟨7, "x"⟩, "u"⟩) : String × SyncEvent Todo)]).map fun p => p.2.id).Pairwise (· < ·))
    ∧ ¬ (((eventsSubscription "u" (some 1)
        (some fun _ => [(⟨2, .insert, ⟨7, "x"⟩, "u"⟩ : SyncEvent Todo)])
        [(("u", ⟨2, .insert, ⟨7, "x"⟩, "u"⟩) : String × SyncEvent Todo)]).map fun p => p.2.id).Nodup)
    ∧ (((fun _ => [(⟨2, .insert, ⟨7, "x"⟩, "u"⟩ : SyncEvent Todo)]) 1).map
        (fun e => e.id)).Pairwise (· < ·)
    ∧ (∀ e ∈ (fun _ => [(⟨2, .insert, ⟨7, "x"⟩, "u"⟩ : SyncEvent Todo)]) 1,
        e.userId = "u" ∧ 1 < e.id)
    ∧ (([("u", (⟨2, .insert, ⟨7, "x"⟩, "u"⟩ : SyncEvent Todo))].map
        fun p => p.2.id).Pairwise (· < ·)) := by
  refine ⟨rfl, ?_, ?_, by decide, by decide, by decide⟩
  · intro h
    simp [eventsSubscription, tagEvent] at h
  · intro h
    simp [eventsSubscription, tagEvent, List.Nodup] at h

/-- C2 (amended): for any recipient, if the catch-up fetch result has
strictly increasing ids, the live-delivered events have strictly
increasing ids, the fetch returns only the subscriber's events with id
beyond the cursor, and additionally every live event delivered to the
subscriber has id strictly greater than every fetched event for the
subscriber (i.e. the fetch result does not already contain an event that
is also captured live, as can happen for an event published while the
fetch is in flight), then the id sequence yielded by a subscription
instance is strictly increasing and duplicate-free. -/
theorem C2_ordering_amended {α : Type} (userId : String) (n : Nat)
    (fetch : Nat → List (SyncEvent α)) (live : List (String × SyncEvent α))
    (hfetchSorted : (((fetch n).map fun e => e.id).Pairwise (· < ·)))
    (hfetchUser : ∀ e ∈ fetch n, e.userId = userId ∧ n < e.id)
    (hliveSorted : ((live.map fun p => p.2.id).Pairwise (· < ·)))
    (hsep : ∀ e ∈ fetch n, ∀ p ∈ live, p.1 = userId → e.id < p.2.id) :
    (((eventsSubscription userId (some n) (some fetch) live).map
        fun p => p.2.id).Pairwise (· < ·))
    ∧ (((eventsSubscription userId (some n) (some fetch) live).map
        fun p => p.2.id).Nodup) := by
  have hcatch : ((((fetch n).filter fun e => e.userId = userId).map
      fun e => e.id).Pairwise (· < ·)) :=
    List.Pairwise.sublist (((fetch n).filter_sublist).map _) hfetchSorted
  have hlive2 : (((live.filter fun p => p.1 = userId).map
      fun p => p.2.id).Pairwise (· < ·)) :=
    List.Pairwise.sublist ((live.filter_sublist).map _) hliveSorted
  have key : (((eventsSubscription userId (some n) (some fetch) live).map
      fun p => p.2.id).Pairwise (· < ·)) := by
    by_cases hn : n = 0
    · subst hn
      simpa [eventsSubscription, tagEvent, List.map_map, Function.comp] using hlive2
    · rw [show (eventsSubscription userId (some n) (some fetch) live).map
          (fun p => p.2.id) =
          (((fetch n).filter fun e => e.userId = userId).map fun e => e.id) ++
            ((live.filter fun p => p.1 = userId).map fun p => p.2.id) by
        simp [eventsSubscription, hn, tagEvent, List.map_map, Function.comp_def]]
      rw [List.pairwise_append]
      refine ⟨hcatch, hlive2, ?_⟩
      intro a ha b hb
      obtain ⟨e, he, rfl⟩ := List.mem_map.1 ha
      obtain ⟨p, hp, rfl⟩ := List.mem_map.1 hb
      exact hsep e (List.mem_of_mem_filter he) p (List.mem_of_mem_filter hp)
        (by simpa using (List.mem_filter.1 hp).2)
  exact ⟨key, key.imp fun h => Nat.ne_of_lt h⟩

theorem C2_ordering_amended_witness :
    (((eventsSubscription "u" (some 1)
        (some fun _ => [(⟨2, .insert, ⟨7, "x"⟩, "u"⟩ : SyncEvent Todo)])
        [(("u", ⟨3, .update, ⟨7, "y"⟩, "u"⟩) : String × SyncEvent Todo)]).map fun p => p.2.id).Nodup) :=
  (C2_ordering_amended "u" 1 (fun _ => [(⟨2, .insert, ⟨7, "x"⟩, "u"⟩ : SyncEvent Todo)])
    [(("u", ⟨3, .update, ⟨7, "y"⟩, "u"⟩) : String × SyncEvent Todo)]
    (by decide) (by decide) (by decide) (by decide)).2

/-! ### Session helper lemmas -/

theorem foldl_handleData_buffering {α : Type} (ls : Bool)
    (l : List (SyncEvent α)) (st : SessionState α)
    (h : st.isInitialSyncComplete = false) :
    l.foldl (handleData ls) st = { st with eventBuffer := st.eventBuffer ++ l } := by
  induction l generalizing st with
  | nil => simp
  | cons e rest ih =>
      rw [List.foldl_cons]
      have hstep : handleData ls st e = { st with eventBuffer := st.eventBuffer ++ [e] } := by
        simp [handleData, h]
      rw [hstep, ih _ (by simpa using h)]
      simp

theorem foldl_handleData_live {α : Type} (ls : Bool)
    (l : List (SyncEvent α)) (st : SessionState α)
    (h : st.isInitialSyncComplete = true) :
    (l.foldl (handleData ls) st).receivedEventIds =
      l.foldl (fun s e => insert e.id s) st.receivedEventIds := by
  induction l generalizing st with
  | nil => rfl
  | cons e rest ih =>
      rw [List.foldl_cons, List.foldl_cons]
      have hstep : handleData ls st e = { st with
          ops := st.ops ++ [.begin, .write e.action e.data, .commit] ++
            (if ls then [.cacheUpdate e.action e.data] else []),
          receivedEventIds := insert e.id st.receivedEventIds,
          lastEventId := some e.id } := by
        simp [handleData, h]
      rw [hstep, ih _ (by simpa using h)]

theorem foldl_handleData_ops_mono {α : Type} (ls : Bool)
    (l : List (SyncEvent α)) (st : SessionState α) (x : Op α)
    (hx : x ∈ st.ops) : x ∈ (l.foldl (handleData ls) st).ops := by
  induction l generalizing st with
  | nil => exact hx
  | cons e rest ih =>
      rw [List.foldl_cons]
      apply ih
      by_cases h : st.isInitialSyncComplete = false
      · simpa [handleData, h] using hx
      · simp only [handleData]
        rw [if_neg h]
        simp only [List.mem_append]
        exact Or.inl (Or.inl hx)

theorem foldl_handleData_markReady_count {α : Type} (ls : Bool)
    (l : List (SyncEvent α)) (st : SessionState α) :
    ((l.foldl (handleData ls) st).ops.countP isMarkReady) =
      st.ops.countP isMarkReady := by
  induction l generalizing st with
  | nil => rfl
  | cons e rest ih =>
      rw [List.foldl_cons, ih]
      by_cases h : st.isInitialSyncComplete = false
      · simp [handleData, h]
      · by_cases hls : ls = true <;>
          simp [handleData, h, hls, List.countP_append, List.countP_cons, isMarkReady]

theorem warmStartOps_markReady_count {α : Type} (ls : Bool)
    (cached : Option (List α)) :
    (warmStartOps ls cached).countP isMarkReady = 0 := by
  rw [List.countP_eq_zero]
  intro a ha
  rcases cached with _ | cd
  · simp [warmStartOps] at ha
    subst ha
    simp [isMarkReady]
  · by_cases h : ls = true ∧ 0 < cd.length
    · simp [warmStartOps, h] at ha
      rcases ha with ha | ⟨item, _, rfl⟩ | ha
      · subst ha
        simp [isMarkReady]
      · simp [isMarkReady]
      · subst ha
        simp [isMarkReady]
    · simp [warmStartOps, h] at ha
      subst ha
      simp [isMarkReady]

theorem snapshotOps_markReady_count {α : Type} (ls : Bool)
    (cached : Option (List α)) (nd : List α) :
    (snapshotOps ls cached nd).countP isMarkReady = 0 := by
  rw [List.countP_eq_zero]
  intro a ha
  by_cases h : 0 < nd.length
  · by_cases hls : ls = true <;> simp [snapshotOps, h, hls] at ha
    · rcases ha with ha | ⟨item, _, rfl⟩ | ⟨item, _, rfl⟩ | ha | ha
      · subst ha; simp [isMarkReady]
      · simp [isMarkReady]
      · simp [isMarkReady]
      · subst ha; simp [isMarkReady]
      · subst ha; simp [isMarkReady]
    · rcases ha with ha | ⟨item, _, rfl⟩ | ⟨item, _, rfl⟩ | ha
      · subst ha; simp [isMarkReady]
      · simp [isMarkReady]
      · simp [isMarkReady]
      · subst ha; simp [isMarkReady]
  · simp [snapshotOps, h] at ha

theorem bufferReplayOps_markReady_count {α : Type} (ls : Bool)
    (buffer : List (SyncEvent α)) :
    (bufferReplayOps ls buffer).countP isMarkReady = 0 := by
  rw [List.countP_eq_zero]
  intro a ha
  by_cases h : 0 < buffer.length
  · by_cases hls : ls = true <;> simp [bufferReplayOps, h, hls] at ha
    · rcases ha with ha | ⟨ev, _, rfl⟩ | ha | ⟨ev, _, rfl⟩
      · subst ha; simp [isMarkReady]
      · simp [isMarkReady]
      · subst ha; simp [isMarkReady]
      · simp [isMarkReady]
    · rcases ha with ha | ⟨ev, _, rfl⟩ | ha
      · subst ha; simp [isMarkReady]
      · simp [isMarkReady]
      · subst ha; simp [isMarkReady]
  · simp [bufferReplayOps, h] at ha

theorem runSession_ok {α ε : Type} (ls : Bool) (cached : Option (List α))
    (pre post : List (SyncEvent α)) (nd : List α) :
    runSession ls cached pre (Except.ok nd : Except ε (List α)) post =
      (post.foldl (handleData ls)
        { ops := warmStartOps ls cached ++ snapshotOps ls cached nd ++
            bufferReplayOps ls pre ++ [Op.markReady],
          eventBuffer := [], isInitialSyncComplete := true,
          receivedEventIds := ∅, lastEventId := none }, Except.ok ()) := by
  have hpre : pre.foldl (handleData ls) (initialSessionState α) =
      ⟨[], pre, false, ∅, none⟩ := by
    simpa [initialSessionState] using
      foldl_handleData_buffering ls pre (initialSessionState α) rfl
  simp only [runSession, initialSyncRun, hpre]
  simp

theorem runSession_error {α ε : Type} (ls : Bool) (cached : Option (List α))
    (pre post : List (SyncEvent α)) (e : ε) :
    runSession ls cached pre (Except.error e : Except ε (List α)) post =
      (post.foldl (handleData ls)
        { ops := warmStartOps ls cached ++ [Op.markReady],
          eventBuffer := pre, isInitialSyncComplete := false,
          receivedEventIds := ∅, lastEventId := none }, Except.error e) := by
  have hpre : pre.foldl (handleData ls) (initialSessionState α) =
      ⟨[], pre, false, ∅, none⟩ := by
    simpa [initialSessionState] using
      foldl_handleData_buffering ls pre (initialSessionState α) rfl
  simp only [runSession, initialSyncRun, hpre]
  simp

theorem foldl_insert_subset {α : Type} (l : List (SyncEvent α)) (s : Finset Nat) :
    s ⊆ l.foldl (fun t e => insert e.id t) s := by
  induction l generalizing s with
  | nil => exact fun x hx => hx
  | cons e rest ih =>
      intro x hx
      exact ih (insert e.id s) (Finset.mem_insert_of_mem hx)

theorem mem_foldl_insert {α : Type} (l : List (SyncEvent α)) (s : Finset Nat) :
    ∀ e ∈ l, e.id ∈ l.foldl (fun t e => insert e.id t) s := by
  induction l generalizing s with
  | nil => simp
  | cons a rest ih =>
      intro e he
      rcases List.mem_cons.1 he with rfl | he
      · exact foldl_insert_subset rest (insert e.id s) (Finset.mem_insert_self _ _)
      · exact ih (insert a.id s) e he

/-! ### C1 — which applied events reach the observed-id set -/

/-- C1 counterexample: a session in which one event (id 5) arrives during
the bootstrap window and the snapshot succeeds.  The event is applied to
the view via the buffer replay (its `write` is in the trace), yet the
final observed-id set is empty, so `awaitEventId 5` remains pending
forever — the claim that *every* applied event's id is recorded is false
for buffered events. -/
theorem C1_counterexample :
    ((runSession true none [⟨5, .insert, ⟨7, "x"⟩, "u"⟩]
        (Except.ok [] : Except Unit (List Todo)) []).1.receivedEventIds = ∅)
    ∧ Op.write Action.insert (⟨7, "x"⟩ : Todo) ∈
        (runSession true none [⟨5, .insert, ⟨7, "x"⟩, "u"⟩]
          (Except.ok [] : Except Unit (List Todo)) []).1.ops
    ∧ awaitEventId
        ((runSession true none [⟨5, .insert, ⟨7, "x"⟩, "u"⟩]
          (Except.ok [] : Except Unit (List Todo)) []).1.receivedEventIds)
        [] 5 = .pending := by
  decide

/-- C1 (amended): only events applied *live* (after the initial sync
completes) have their ids recorded in `receivedEventIds`: after a session
whose snapshot fetch succeeds, the observed-id set is exactly the set of
ids of the post-snapshot events; in particular every live-applied event's
id is in the set (and so its `awaitEventId` is released), while events
replayed from the bootstrap buffer contribute nothing to it. -/
theorem C1_received_ids_amended {α ε : Type} (ls : Bool)
    (cached : Option (List α)) (pre : List (SyncEvent α)) (nd : List α)
    (post : List (SyncEvent α)) :
    (runSession ls cached pre (Except.ok nd : Except ε (List α))
        post).1.receivedEventIds =
      post.foldl (fun s e => insert e.id s) ∅
    ∧ ∀ e ∈ post, e.id ∈
        (runSession ls cached pre (Except.ok nd : Except ε (List α))
          post).1.receivedEventIds := by
  rw [runSession_ok]
  have hlive := foldl_handleData_live ls post
    { ops := warmStartOps ls cached ++ snapshotOps ls cached nd ++
        bufferReplayOps ls pre ++ [Op.markReady],
      eventBuffer := [], isInitialSyncComplete := true,
      receivedEventIds := ∅, lastEventId := none } rfl
  refine ⟨hlive, ?_⟩
  intro e he
  rw [hlive]
  exact mem_foldl_insert post ∅ e he

theorem C1_received_ids_amended_witness :
    5 ∈ (runSession true (none : Option (List Todo)) []
        (Except.ok [] : Except Unit (List Todo))
        [⟨5, .insert, ⟨7, "x"⟩, "u"⟩]).1.receivedEventIds :=
  (@C1_received_ids_amended Todo Unit true none [] []
    [⟨5, .insert, ⟨7, "x"⟩, "u"⟩]).2 ⟨5, .insert, ⟨7, "x"⟩, "u"⟩ (by simp)

/-! ### C3 — snapshot arrival -/

/-- C3 counterexample: a bootstrap with a cached warm-start row and a
*zero-row* snapshot.  The snapshot fetch succeeds, yet the trace shows the
warm-start row is never retracted (no delete is written), and the
warm-start cache is never overwritten (no cache save occurs): the whole
snapshot-arrival block is guarded by `networkData.length > 0`. -/
theorem C3_counterexample :
    (runSession true (some [⟨1, "a"⟩]) []
        (Except.ok [] : Except Unit (List Todo)) []).1.ops =
      [.begin, .write .insert ⟨1, "a"⟩, .commit, .markReady]
    ∧ Op.write Action.delete (⟨1, "a"⟩ : Todo) ∉
        (runSession true (some [⟨1, "a"⟩]) []
          (Except.ok [] : Except Unit (List Todo)) []).1.ops
    ∧ ∀ rows : List Todo, Op.saveCache rows ∉
        (runSession true (some [⟨1, "a"⟩]) []
          (Except.ok [] : Except Unit (List Todo)) []).1.ops := by
  have hops : (runSession true (some [⟨1, "a"⟩]) []
      (Except.ok [] : Except Unit (List Todo)) []).1.ops =
      [.begin, .write .insert ⟨1, "a"⟩, .commit, .markReady] := by decide
  refine ⟨hops, ?_, ?_⟩
  · rw [hops]
    decide
  · intro rows hmem
    rw [hops] at hmem
    simp at hmem

/-- C3 (amended): on a bootstrap whose snapshot fetch succeeds with a
*non-empty* row list, the trace contains a delete for every cached
warm-start row, an insert for every snapshot row, and (when local storage
is enabled) the warm-start cache overwrite with the snapshot row set; a
zero-row snapshot skips all three. -/
theorem C3_snapshot_amended {α ε : Type} (ls : Bool) (cached : Option (List α))
    (pre post : List (SyncEvent α)) (nd : List α) (hnd : 0 < nd.length) :
    (∀ item ∈ cached.getD [], Op.write Action.delete item ∈
        (runSession ls cached pre (Except.ok nd : Except ε (List α)) post).1.ops)
    ∧ (∀ item ∈ nd, Op.write Action.insert item ∈
        (runSession ls cached pre (Except.ok nd : Except ε (List α)) post).1.ops)
    ∧ (ls = true → Op.saveCache nd ∈
        (runSession ls cached pre (Except.ok nd : Except ε (List α)) post).1.ops) := by
  have hlift : ∀ x ∈ snapshotOps ls cached nd,
      x ∈ (runSession ls cached pre (Except.ok nd : Except ε (List α))
        post).1.ops := by
    intro x hx
    rw [runSession_ok]
    apply foldl_handleData_ops_mono
    simp only [List.mem_append]
    exact Or.inl (Or.inl (Or.inr hx))
  refine ⟨?_, ?_, ?_⟩
  · intro item hit
    apply hlift
    unfold snapshotOps
    rw [if_pos hnd]
    simp only [List.mem_append]
    exact Or.inl (Or.inl (Or.inl (Or.inr (List.mem_map_of_mem _ hit))))
  · intro item hit
    apply hlift
    unfold snapshotOps
    rw [if_pos hnd]
    simp only [List.mem_append]
    exact Or.inl (Or.inl (Or.inr (List.mem_map_of_mem _ hit)))
  · intro hls
    apply hlift
    unfold snapshotOps
    rw [if_pos hnd]
    simp only [List.mem_append]
    exact Or.inr (by simp [hls])

theorem C3_snapshot_amended_witness :
    Op.write Action.delete (⟨1, "a"⟩ : Todo) ∈
      (runSession true (some [⟨1, "a"⟩]) []
        (Except.ok [⟨2, "b"⟩] : Except Unit (List Todo)) []).1.ops
    ∧ Op.saveCache [(⟨2, "b"⟩ : Todo)] ∈
      (runSession true (some [⟨1, "a"⟩]) []
        (Except.ok [⟨2, "b"⟩] : Except Unit (List Todo)) []).1.ops :=
  ⟨(@C3_snapshot_amended Todo Unit true (some [⟨1, "a"⟩]) [] [] [⟨2, "b"⟩]
      (by decide)).1 ⟨1, "a"⟩ (by simp),
   (@C3_snapshot_amended Todo Unit true (some [⟨1, "a"⟩]) [] [] [⟨2, "b"⟩]
      (by decide)).2.2 rfl⟩

/-! ### C4 — the warm-start cache read -/

/-- C4: the bootstrap's cache read (`loadFromLocalStorage(config.name)` at
`collection-options.ts:162`) passes no serializer, so `serializer.parse`
throws inside `loadFromLocalStorage`, the `catch` returns `null`, and the
load misses for *every* stored string — regardless of what the configured
serializer could decode.  Consequently the session is identical to a
cache-miss session and the warm-start phase is the bare dangling `begin`:
the provisional insert batch the spec describes is never applied. -/
theorem C4_cache_load_always_misses {ε : Type} (storageStr : String)
    (pre post : List (SyncEvent Todo)) (networkData : Except ε (List Todo)) :
    runSessionFromStorage true (some storageStr) pre networkData post =
      runSessionFromStorage true none pre networkData post
    ∧ @loadFromLocalStorage (List Todo) (some storageStr) none = none
    ∧ warmStartOps true (@loadFromLocalStorage (List Todo) (some storageStr) none) =
        [Op.begin] :=
  ⟨rfl, rfl, rfl⟩

/-! ### C6 — readiness and error propagation -/

/-- C6: every bootstrap signals readiness exactly once — the trace contains
exactly one `markReady`, whether the snapshot fetch succeeds or rejects —
and a rejected snapshot fetch is rethrown from `initialSync` (the run's
result is the error, not a swallowed success). -/
theorem C6_mark_ready_exactly_once {α ε : Type} (ls : Bool)
    (cached : Option (List α)) (pre post : List (SyncEvent α))
    (networkData : Except ε (List α)) :
    ((runSession ls cached pre networkData post).1.ops.countP isMarkReady = 1)
    ∧ (∀ e, networkData = .error e →
        (runSession ls cached pre networkData post).2 = .error e)
    ∧ (∀ rows, networkData = .ok rows →
        (runSession ls cached pre networkData post).2 = .ok ()) := by
  rcases networkData with e | rows
  · rw [runSession_error]
    refine ⟨?_, ?_, ?_⟩
    · rw [foldl_handleData_markReady_count, List.countP_append,
        warmStartOps_markReady_count]
      simp [List.countP_cons, isMarkReady]
    · intro e' he'
      cases he'
      rfl
    · intro rows h
      exact Except.noConfusion h
  · rw [runSession_ok]
    refine ⟨?_, ?_, ?_⟩
    · rw [foldl_handleData_markReady_count]
      rw [List.countP_append, List.countP_append, List.countP_append,
        warmStartOps_markReady_count, snapshotOps_markReady_count,
        bufferReplayOps_markReady_count]
      simp [List.countP_cons, isMarkReady]
    · intro e h
      exact Except.noConfusion h
    · intro rows' h
      cases h
      rfl

theorem C6_mark_ready_exactly_once_witness :
    ((runSession true (none : Option (List Todo)) []
        (Except.error "boom" : Except String (List Todo)) []).1.ops.countP
      isMarkReady = 1)
    ∧ (runSession true (none : Option (List Todo)) []
        (Except.error "boom" : Except String (List Todo)) []).2 =
      .error "boom" :=
  ⟨(C6_mark_ready_exactly_once true none [] []
      (Except.error "boom" : Except String (List Todo))).1,
   (C6_mark_ready_exactly_once true none [] []
      (Except.error "boom" : Except String (List Todo))).2.1 "boom" rfl⟩

end TrpcDb
